import Mathlib

/-!
# Verification of the Darwin module-task affinity engine

A shallow embedding of `src/bin/affinity.py`: the task classifier
(`classify_task`), the affinity data model (`module_type → variant →
task_type → score`), the online score update (`update_affinity`) and the
best-variant selection (`get_best_modules`).

Modelling conventions:
* Python `dict`s are ordered association lists (`List (String × _)`);
  `alookup` returns the first binding, `aset` overwrites the first binding
  in place or appends a fresh binding at the end, exactly as CPython dicts
  behave under `d[k]` / `d[k] = v`.
* Python floats are modelled as exact rationals (`ℚ`); `round(x, 3)` is
  modelled as `round3` (round to the nearest multiple of 1/1000, via
  Mathlib's `round`; Python breaks exact halves to even, Mathlib upward —
  none of the verified properties depends on the direction of exact ties).
* `update_affinity` receives the timestamp written by
  `save_affinity_matrix` as an explicit `now` argument, replacing
  `datetime.utcnow()`.
* The state file is modelled for `load_affinity_matrix` as
  `Option (Option JsonValue)`: `none` = file absent, `some none` = file
  present but `json.load` raises, `some (some j)` = file parses to the
  JSON document `j`.
-/

set_option maxHeartbeats 1000000

/-- `task_type → score`, the innermost level of the affinity matrix. -/
abbrev TaskScores := List (String × ℚ)

/-- `variant → task scores`, the middle level of the affinity matrix. -/
abbrev VariantScores := List (String × TaskScores)

/-- `module_type → variant → task_type → score`: the affinity matrix. -/
abbrev AffinityMatrix := List (String × VariantScores)

/-- The persisted root object (`matrix`, `observations`, `last_updated`). -/
structure AffinityState where
  matrix : AffinityMatrix
  observations : ℕ
  last_updated : Option String
deriving DecidableEq, Repr

/-- First binding of key `k` in an association list (Python `d[k]` / `d.get(k)`). -/
def alookup {α : Type} (k : String) : List (String × α) → Option α
  | [] => none
  | p :: rest => if p.1 = k then some p.2 else alookup k rest

/-- Write `d[k] = v` on an ordered association list: overwrite the first
binding of `k` in place, or append a new binding at the end, as CPython
dicts do. -/
def aset {α : Type} (k : String) (v : α) : List (String × α) → List (String × α)
  | [] => [(k, v)]
  | p :: rest => if p.1 = k then (k, v) :: rest else p :: aset k v rest

/-- The keys of an association list, in order. -/
def akeys {α : Type} (l : List (String × α)) : List String := l.map Prod.fst

/-- `TASK_PATTERNS` from `affinity.py`: task-type classification keywords,
in declaration order. -/
def TASK_PATTERNS : List (String × List String) :=
  [("planning", ["plan", "design", "architect", "implement", "feature", "roadmap", "strategy"]),
   ("debugging", ["fix", "bug", "error", "issue", "broken", "failing", "crash", "debug"]),
   ("refactoring", ["refactor", "clean", "improve", "optimize", "restructure", "modernize"]),
   ("documentation", ["doc", "readme", "comment", "explain", "document"]),
   ("testing", ["test", "spec", "coverage", "assert", "mock", "e2e"]),
   ("review", ["review", "audit", "check", "analyze", "assess"]),
   ("generation", ["create", "generate", "scaffold", "new", "add", "build"])]

/-- `DEFAULT_AFFINITY` from `affinity.py`: seed affinity scores. -/
def DEFAULT_AFFINITY : AffinityMatrix :=
  [("research",
    [("v1", [("planning", 0.72), ("debugging", 0.45), ("refactoring", 0.68), ("documentation", 0.50), ("testing", 0.55), ("review", 0.60), ("generation", 0.65)]),
     ("v2", [("planning", 0.81), ("debugging", 0.52), ("refactoring", 0.71), ("documentation", 0.65), ("testing", 0.60), ("review", 0.75), ("generation", 0.70)]),
     ("v3", [("planning", 0.65), ("debugging", 0.78), ("refactoring", 0.59), ("documentation", 0.40), ("testing", 0.70), ("review", 0.55), ("generation", 0.80)])]),
   ("structure",
    [("v1", [("planning", 0.88), ("debugging", 0.61), ("refactoring", 0.74), ("documentation", 0.70), ("testing", 0.65), ("review", 0.80), ("generation", 0.72)]),
     ("v2", [("planning", 0.71), ("debugging", 0.69), ("refactoring", 0.82), ("documentation", 0.60), ("testing", 0.75), ("review", 0.68), ("generation", 0.78)]),
     ("v3", [("planning", 0.60), ("debugging", 0.75), ("refactoring", 0.65), ("documentation", 0.45), ("testing", 0.80), ("review", 0.55), ("generation", 0.85)])]),
   ("output",
    [("v1", [("planning", 0.85), ("debugging", 0.60), ("refactoring", 0.70), ("documentation", 0.80), ("testing", 0.55), ("review", 0.75), ("generation", 0.65)]),
     ("v2", [("planning", 0.70), ("debugging", 0.70), ("refactoring", 0.75), ("documentation", 0.65), ("testing", 0.70), ("review", 0.65), ("generation", 0.75)]),
     ("v3", [("planning", 0.55), ("debugging", 0.80), ("refactoring", 0.60), ("documentation", 0.40), ("testing", 0.85), ("review", 0.50), ("generation", 0.88)])]),
   ("workflow",
    [("v1", [("planning", 0.80), ("debugging", 0.55), ("refactoring", 0.65), ("documentation", 0.70), ("testing", 0.60), ("review", 0.85), ("generation", 0.60)]),
     ("v2", [("planning", 0.75), ("debugging", 0.70), ("refactoring", 0.80), ("documentation", 0.65), ("testing", 0.75), ("review", 0.70), ("generation", 0.70)]),
     ("v3", [("planning", 0.65), ("debugging", 0.85), ("refactoring", 0.70), ("documentation", 0.50), ("testing", 0.80), ("review", 0.60), ("generation", 0.85)])]),
   ("input",
    [("v1", [("planning", 0.70), ("debugging", 0.75), ("refactoring", 0.65), ("documentation", 0.80), ("testing", 0.70), ("review", 0.75), ("generation", 0.60)]),
     ("v2", [("planning", 0.75), ("debugging", 0.70), ("refactoring", 0.70), ("documentation", 0.65), ("testing", 0.65), ("review", 0.70), ("generation", 0.75)])]),
   ("validation",
    [("v1", [("planning", 0.60), ("debugging", 0.85), ("refactoring", 0.80), ("documentation", 0.50), ("testing", 0.90), ("review", 0.75), ("generation", 0.70)]),
     ("v2", [("planning", 0.70), ("debugging", 0.80), ("refactoring", 0.85), ("documentation", 0.55), ("testing", 0.85), ("review", 0.80), ("generation", 0.75)]),
     ("v3", [("planning", 0.80), ("debugging", 0.50), ("refactoring", 0.60), ("documentation", 0.70), ("testing", 0.55), ("review", 0.65), ("generation", 0.80)])])]

/-- The seed default state returned by `load_affinity_matrix` when the
file is absent or unreadable. -/
def defaultState : AffinityState :=
  { matrix := DEFAULT_AFFINITY, observations := 0, last_updated := none }

/-! ## Task classification (`classify_task`) -/

/-- ASCII lower-casing of one character, modelling Python `str.lower()`
on the ASCII range (all classification keywords are ASCII). -/
def lowerChar (c : Char) : Char :=
  if 'A' ≤ c ∧ c ≤ 'Z' then Char.ofNat (c.toNat + 32) else c

/-- Lower-cased character sequence of the input (`context.lower()`). -/
def lowered (context : String) : List Char := context.toList.map lowerChar

/-- Python's substring test `kw in s`, by naive search. -/
def occursIn (kw : List Char) : List Char → Bool
  | [] => kw.isEmpty
  | c :: rest => kw.isPrefixOf (c :: rest) || occursIn kw rest

/-- Number of keywords of one task type occurring in the lower-cased text:
`sum(1 for kw in keywords if kw in context_lower)`. -/
def typeScore (context : String) (keywords : List String) : ℕ :=
  keywords.countP (fun kw => occursIn kw.toList (lowered context))

/-- First element of `x :: l` with the strictly greatest second component,
as produced by CPython `max(..., key=...)` (and by the explicit loop of
`get_best_modules`): a later element replaces the current best only when
its value is strictly greater. -/
def pickFirst {β : Type} [LinearOrder β] (x : String × β) (l : List (String × β)) : String × β :=
  l.foldl (fun best y => if best.2 < y.2 then y else best) x

/-- One iteration of the scoring loop of `classify_task`: the task type is
entered into `scores` only when its keyword count is positive. -/
def classifyStep (context : String) (tk : String × List String) : Option (String × ℕ) :=
  let score := typeScore context tk.2
  if 0 < score then some (tk.1, score) else none

/-- `classify_task` from `affinity.py`: count keyword matches per task
type, keep the positive counts in `TASK_PATTERNS` order, return the first
task type with the maximal count, or `"generation"` when nothing matched. -/
def classify_task (context : String) : String :=
  let scores := TASK_PATTERNS.filterMap (classifyStep context)
  match scores with
  | [] => "generation"
  | s :: rest => (pickFirst s rest).1

/-! ## Best-variant selection (`get_best_modules`) -/

/-- The score of a variant for a task type, defaulting to 0.5 when absent
(`scores.get(task_type, 0.5)`). -/
def effScore (task_type : String) (scores : TaskScores) : ℚ :=
  (alookup task_type scores).getD 0.5

/-- The inner loop of `get_best_modules`: scan the variants of one module
type starting from `best_variant = None`, `best_score = -1`, replacing the
best on a strictly greater score. -/
def bestVariant (task_type : String) (variants : VariantScores) : Option String × ℚ :=
  variants.foldl
    (fun best vs =>
      let score := effScore task_type vs.2
      if best.2 < score then (some vs.1, score) else best)
    (none, -1)

/-- The guard `if best_variant:` of `get_best_modules`, applied to one
`(module_type, variants)` entry: Python truthiness keeps the winner only
when `best_variant` is neither `None` nor the falsy empty string `""`. -/
def bestStep (task_type module_type : String) (variants : VariantScores) :
    Option (String × String × ℚ) :=
  (bestVariant task_type variants).1.bind (fun v =>
    if v = "" then none
    else some (module_type, v, (bestVariant task_type variants).2))

/-- `get_best_modules` from `affinity.py`: one winning `(variant, score)`
per module type; a module type whose scan leaves a falsy `best_variant`
(`None`, or the empty string under Python truthiness) is omitted. -/
def get_best_modules (task_type : String) (matrix : AffinityMatrix) :
    List (String × String × ℚ) :=
  matrix.filterMap (fun mv => bestStep task_type mv.1 mv.2)

/-! ## Online update (`update_affinity`) -/

/-- The annealed learning rate: `max(0.05, 0.3 / (1 + observations * 0.01))`. -/
def learning_rate (observations : ℕ) : ℚ :=
  max 0.05 (0.3 / (1 + (observations : ℚ) * 0.01))

/-- Rounding to 3 decimal places (`round(x, 3)`). -/
def round3 (x : ℚ) : ℚ := (round (x * 1000) : ℚ) / 1000

/-- Clamping to the score interval: `max(0.1, min(0.99, x))`. -/
def clampScore (x : ℚ) : ℚ := max 0.1 (min 0.99 x)

/-- The score written back for one touched entry:
`round(max(0.1, min(0.99, current + fitness_delta * learning_rate)), 3)`. -/
def updatedScore (rate current fitness_delta : ℚ) : ℚ :=
  round3 (clampScore (current + fitness_delta * rate))

/-- One iteration of the update loop: the pair `p = (module_type, variant)`
is applied only when both identifiers already exist in the matrix,
otherwise the matrix is returned unchanged. -/
def updatePair (task_type : String) (fitness_delta rate : ℚ)
    (matrix : AffinityMatrix) (p : String × String) : AffinityMatrix :=
  match alookup p.1 matrix with
  | none => matrix
  | some variants =>
    match alookup p.2 variants with
    | none => matrix
    | some scores =>
      let current := (alookup task_type scores).getD 0.5
      aset p.1 (aset p.2 (aset task_type (updatedScore rate current fitness_delta) scores) variants) matrix

/-- `update_affinity` from `affinity.py`, as a pure state transformer: the
learning rate is computed from the current observation count, every pair in
`modules` is applied in order, `observations` is incremented once, and
`save_affinity_matrix` stamps `last_updated` (with `now` standing for
`datetime.utcnow()`). The `skill` argument is accepted exactly as in the
source, which never reads it. -/
def update_affinity (skill : String) (task_type : String)
    (modules : List (String × String)) (fitness_delta : ℚ)
    (now : String) (data : AffinityState) : AffinityState :=
  let rate := learning_rate data.observations
  let matrix := modules.foldl (updatePair task_type fitness_delta rate) data.matrix
  { matrix := matrix, observations := data.observations + 1, last_updated := some now }

/-- One `update_affinity` call with all of its inputs. -/
structure UpdateCall where
  skill : String
  task_type : String
  modules : List (String × String)
  fitness_delta : ℚ
  now : String

/-- A sequence of `update_affinity` calls applied in order. -/
def applyUpdates (calls : List UpdateCall) (s : AffinityState) : AffinityState :=
  calls.foldl
    (fun st c => update_affinity c.skill c.task_type c.modules c.fitness_delta c.now st) s

/-- The full path to one stored score. -/
def lookupScore (matrix : AffinityMatrix) (mt v tt : String) : Option ℚ :=
  (alookup mt matrix).bind (fun vs => (alookup v vs).bind (fun sc => alookup tt sc))

/-! ## Persistence (`load_affinity_matrix`) -/

/-- A parsed JSON document, as returned by `json.load`. -/
inductive JsonValue where
  | null
  | bool (b : Bool)
  | num (q : ℚ)
  | str (s : String)
  | arr (elems : List JsonValue)
  | obj (fields : List (String × JsonValue))

/-- JSON encoding of the inner score map. -/
def scoresToJson (s : TaskScores) : JsonValue :=
  JsonValue.obj (s.map (fun p => (p.1, JsonValue.num p.2)))

/-- JSON encoding of the variant map. -/
def variantsToJson (vs : VariantScores) : JsonValue :=
  JsonValue.obj (vs.map (fun p => (p.1, scoresToJson p.2)))

/-- JSON encoding of the affinity matrix. -/
def matrixToJson (m : AffinityMatrix) : JsonValue :=
  JsonValue.obj (m.map (fun p => (p.1, variantsToJson p.2)))

/-- The JSON document of the seed default state:
`{"matrix": DEFAULT_AFFINITY, "observations": 0, "last_updated": None}`. -/
def DEFAULT_STATE_JSON : JsonValue :=
  JsonValue.obj
    [("matrix", matrixToJson DEFAULT_AFFINITY),
     ("observations", JsonValue.num 0),
     ("last_updated", JsonValue.null)]

/-- `load_affinity_matrix` from `affinity.py` over the file model:
`none` = `AFFINITY_FILE.exists()` false; `some none` = the file exists but
`open`/`json.load` raises (caught by the bare `except`); `some (some j)` =
`json.load` returns the document `j`, which is returned to the caller
unchanged, whatever its shape. The function is total: it never raises. -/
def load_affinity_matrix (file : Option (Option JsonValue)) : JsonValue :=
  match file with
  | some (some parsed) => parsed
  | _ => DEFAULT_STATE_JSON

/-- Shape discriminator used to tell a non-object document from the
default state object. -/
def jsonIsNum : JsonValue → Bool
  | JsonValue.num _ => true
  | _ => false

/-- A rational with at most 3 decimal places. -/
def threeDecimals (q : ℚ) : Prop := ∃ k : ℤ, q = (k : ℚ) / 1000

/-- The documented score interval `[0.1, 0.99]`. -/
def scoreInRange (q : ℚ) : Prop := 0.1 ≤ q ∧ q ≤ 0.99

/-- Every stored score of the matrix lies in `[0.1, 0.99]`. -/
def matrixInRange (matrix : AffinityMatrix) : Prop :=
  ∀ mv ∈ matrix, ∀ vsc ∈ mv.2, ∀ tq ∈ vsc.2, scoreInRange tq.2

/-- Every stored score of the matrix exceeds the `-1` sentinel that
`get_best_modules` starts its scan from. -/
def matrixScoresGtNegOne (matrix : AffinityMatrix) : Prop :=
  ∀ mv ∈ matrix, ∀ vsc ∈ mv.2, ∀ tq ∈ vsc.2, (-1 : ℚ) < tq.2

instance (q : ℚ) : Decidable (scoreInRange q) := by unfold scoreInRange; infer_instance

instance (m : AffinityMatrix) : Decidable (matrixInRange m) := by
  unfold matrixInRange; infer_instance

instance (m : AffinityMatrix) : Decidable (matrixScoresGtNegOne m) := by
  unfold matrixScoresGtNegOne; infer_instance

/-- The membership test of the update loop:
`module_type in matrix and variant in matrix[module_type]`. -/
def knownPair (matrix : AffinityMatrix) (p : String × String) : Bool :=
  ((alookup p.1 matrix).bind (fun vs => alookup p.2 vs)).isSome

/-! ## Association-list lemmas -/

theorem alookup_mem {α : Type} {k : String} {v : α} :
    ∀ {l : List (String × α)}, alookup k l = some v → (k, v) ∈ l := by
  intro l
  induction l with
  | nil => intro h; simp [alookup] at h
  | cons p rest ih =>
    intro h
    rw [alookup] at h
    by_cases hk : p.1 = k
    · rw [if_pos hk] at h
      injection h with h2
      have hp : (k, v) = p := by rw [← hk, ← h2]
      rw [hp]
      exact List.mem_cons_self p rest
    · rw [if_neg hk] at h
      exact List.mem_cons_of_mem p (ih h)

theorem mem_aset {α : Type} {k : String} {v : α} :
    ∀ {l : List (String × α)} {p : String × α}, p ∈ aset k v l → p = (k, v) ∨ p ∈ l := by
  intro l
  induction l with
  | nil => intro p h; simp [aset] at h; left; exact h
  | cons q rest ih =>
    intro p h
    rw [aset] at h
    by_cases hk : q.1 = k
    · rw [if_pos hk] at h
      rcases List.mem_cons.mp h with h1 | h2
      · left; exact h1
      · right; exact List.mem_cons_of_mem q h2
    · rw [if_neg hk] at h
      rcases List.mem_cons.mp h with h1 | h2
      · right; rw [h1]; exact List.mem_cons_self q rest
      · rcases ih h2 with h3 | h4
        · left; exact h3
        · right; exact List.mem_cons_of_mem q h4

theorem alookup_aset_self {α : Type} (k : String) (v : α) :
    ∀ (l : List (String × α)), alookup k (aset k v l) = some v := by
  intro l
  induction l with
  | nil => simp [aset, alookup]
  | cons p rest ih =>
    rw [aset]
    by_cases hk : p.1 = k
    · rw [if_pos hk, alookup, if_pos rfl]
    · rw [if_neg hk, alookup, if_neg hk, ih]

theorem alookup_aset_ne {α : Type} {j k : String} (hjk : j ≠ k) (v : α) :
    ∀ (l : List (String × α)), alookup j (aset k v l) = alookup j l := by
  intro l
  induction l with
  | nil => simp [aset, alookup, Ne.symm hjk]
  | cons p rest ih =>
    rw [aset]
    by_cases hk : p.1 = k
    · have hpj : ¬ p.1 = j := by rw [hk]; exact Ne.symm hjk
      rw [if_pos hk, alookup, alookup, if_neg (Ne.symm hjk), if_neg hpj]
    · rw [if_neg hk, alookup, alookup, ih]

theorem akeys_aset_of_lookup {α : Type} {k : String} {w : α} (v : α) :
    ∀ {l : List (String × α)}, alookup k l = some w → akeys (aset k v l) = akeys l := by
  intro l
  induction l with
  | nil => intro h; simp [alookup] at h
  | cons p rest ih =>
    intro h
    rw [alookup] at h
    rw [aset]
    by_cases hk : p.1 = k
    · rw [if_pos hk, akeys, akeys, List.map_cons, List.map_cons, hk]
    · rw [if_neg hk] at h
      rw [if_neg hk]
      have ih2 := ih h
      simp only [akeys, List.map_cons] at ih2 ⊢
      rw [ih2]

theorem alookup_isSome_aset {α : Type} (j k : String) (v : α) (l : List (String × α)) :
    (alookup j (aset k v l)).isSome = ((alookup j l).isSome || (j = k : Bool)) := by
  by_cases hjk : j = k
  · subst hjk
    rw [alookup_aset_self j v l]
    simp
  · rw [alookup_aset_ne hjk v l]
    simp [hjk]

/-! ## First-maximum selection lemmas -/

theorem pickFirst_spec {β : Type} [LinearOrder β] :
    ∀ (l : List (String × β)) (x : String × β),
      x.2 ≤ (pickFirst x l).2 ∧ (∀ y ∈ l, y.2 ≤ (pickFirst x l).2) ∧
      (pickFirst x l = x ∨
        ∃ l₁ l₂, l = l₁ ++ (pickFirst x l) :: l₂ ∧ x.2 < (pickFirst x l).2 ∧
          ∀ y ∈ l₁, y.2 < (pickFirst x l).2) := by
  intro l
  induction l with
  | nil => intro x; refine ⟨le_refl _, ?_, Or.inl rfl⟩; intro y hy; simp at hy
  | cons a l ih =>
    intro x
    by_cases hax : x.2 < a.2
    · have hstep : pickFirst x (a :: l) = pickFirst a l := by
        simp [pickFirst, List.foldl_cons, if_pos hax]
      obtain ⟨h1, h2, h3⟩ := ih a
      rw [hstep]
      refine ⟨le_of_lt (lt_of_lt_of_le hax h1), ?_, ?_⟩
      · intro y hy
        rcases List.mem_cons.mp hy with h | h
        · rw [h]; exact h1
        · exact h2 y h
      · right
        rcases h3 with h3 | ⟨l₁, l₂, hl, hlt, hsmall⟩
        · refine ⟨[], l, by simp [h3], by rw [h3]; exact hax, ?_⟩
          intro y hy; simp at hy
        · refine ⟨a :: l₁, l₂, by rw [List.cons_append, ← hl], lt_trans hax hlt, ?_⟩
          intro y hy
          rcases List.mem_cons.mp hy with h | h
          · rw [h]; exact hlt
          · exact hsmall y h
    · have hstep : pickFirst x (a :: l) = pickFirst x l := by
        simp [pickFirst, List.foldl_cons, if_neg hax]
      obtain ⟨h1, h2, h3⟩ := ih x
      rw [hstep]
      refine ⟨h1, ?_, ?_⟩
      · intro y hy
        rcases List.mem_cons.mp hy with h | h
        · rw [h]; exact le_trans (le_of_not_lt hax) h1
        · exact h2 y h
      · rcases h3 with h3 | ⟨l₁, l₂, hl, hlt, hsmall⟩
        · left; exact h3
        · right
          refine ⟨a :: l₁, l₂, by rw [List.cons_append, ← hl], hlt, ?_⟩
          intro y hy
          rcases List.mem_cons.mp hy with h | h
          · rw [h]; exact lt_of_le_of_lt (le_of_not_lt hax) hlt
          · exact hsmall y h

theorem filterMap_split {α β : Type} (f : α → Option β) :
    ∀ (c : List α) (f₁ : List β) (m : β) (f₂ : List β),
      c.filterMap f = f₁ ++ m :: f₂ →
      ∃ l₁ a l₂, c = l₁ ++ a :: l₂ ∧ f a = some m ∧
        ∀ y ∈ l₁, ∀ b, f y = some b → b ∈ f₁ := by
  intro c
  induction c with
  | nil =>
    intro f₁ m f₂ h
    rw [List.filterMap_nil] at h
    cases f₁ <;> simp at h
  | cons a c ih =>
    intro f₁ m f₂ h
    rw [List.filterMap_cons] at h
    cases hfa : f a with
    | none =>
      rw [hfa] at h
      obtain ⟨l₁, a₀, l₂, hc, hm, hmem⟩ := ih f₁ m f₂ h
      refine ⟨a :: l₁, a₀, l₂, by rw [List.cons_append, hc], hm, ?_⟩
      intro y hy b hfb
      rcases List.mem_cons.mp hy with h1 | h1
      · rw [h1, hfa] at hfb; cases hfb
      · exact hmem y h1 b hfb
    | some b₀ =>
      rw [hfa] at h
      cases f₁ with
      | nil =>
        rw [List.nil_append] at h
        injection h with hb ht
        refine ⟨[], a, c, by simp, by rw [hfa, hb], ?_⟩
        intro y hy; simp at hy
      | cons b₁ f₁ =>
        rw [List.cons_append] at h
        injection h with hb ht
        obtain ⟨l₁, a₀, l₂, hc, hm, hmem⟩ := ih f₁ m f₂ ht
        refine ⟨a :: l₁, a₀, l₂, by rw [List.cons_append, hc], hm, ?_⟩
        intro y hy b hfb
        rcases List.mem_cons.mp hy with h1 | h1
        · rw [h1, hfa] at hfb
          injection hfb with hfb2
          rw [← hfb2, hb]
          exact List.mem_cons_self b₁ f₁
        · exact List.mem_cons_of_mem b₁ (hmem y h1 b hfb)

/-! ## Rounding and clamping lemmas -/

theorem round3_mono {x y : ℚ} (h : x ≤ y) : round3 x ≤ round3 y := by
  unfold round3
  have h1 : round (x * 1000) ≤ round (y * 1000) := by
    rw [round_eq, round_eq]
    exact Int.floor_mono (by linarith)
  have h2 : ((round (x * 1000) : ℚ)) ≤ ((round (y * 1000) : ℚ)) := by exact_mod_cast h1
  linarith

theorem round3_fix {q : ℚ} (h : threeDecimals q) : round3 q = q := by
  obtain ⟨k, hk⟩ := h
  unfold round3
  rw [hk]
  have h1 : ((k : ℚ) / 1000) * 1000 = (k : ℚ) := by field_simp
  rw [h1, round_intCast]

theorem round3_low : round3 0.1 = 0.1 := round3_fix ⟨100, by norm_num⟩

theorem round3_high : round3 0.99 = 0.99 := round3_fix ⟨990, by norm_num⟩

theorem round3_close (x : ℚ) : |round3 x - x| ≤ 1 / 2000 := by
  unfold round3
  have h := abs_sub_round (x * 1000)
  have he : (round (x * 1000) : ℚ) / 1000 - x = -((x * 1000 - (round (x * 1000) : ℚ)) / 1000) := by
    ring
  rw [he, abs_neg, abs_div, abs_of_pos (by norm_num : (0 : ℚ) < 1000)]
  linarith

theorem clampScore_mem (x : ℚ) : 0.1 ≤ clampScore x ∧ clampScore x ≤ 0.99 := by
  unfold clampScore
  exact ⟨le_max_left _ _, max_le (by norm_num) (min_le_left _ _)⟩

theorem clampScore_fix {x : ℚ} (h1 : 0.1 ≤ x) (h2 : x ≤ 0.99) : clampScore x = x := by
  unfold clampScore
  rw [min_eq_right h2, max_eq_right h1]

theorem updatedScore_mem (rate current delta : ℚ) : scoreInRange (updatedScore rate current delta) := by
  unfold scoreInRange updatedScore
  obtain ⟨hl, hh⟩ := clampScore_mem (current + delta * rate)
  constructor
  · calc (0.1 : ℚ) = round3 0.1 := round3_low.symm
      _ ≤ round3 (clampScore (current + delta * rate)) := round3_mono hl
  · calc round3 (clampScore (current + delta * rate)) ≤ round3 0.99 := round3_mono hh
      _ = 0.99 := round3_high

theorem updatedScore_zero {current : ℚ} (h1 : 0.1 ≤ current) (h2 : current ≤ 0.99) (rate : ℚ) :
    updatedScore rate current 0 = round3 current := by
  unfold updatedScore
  rw [zero_mul, add_zero, clampScore_fix h1 h2]

theorem updatedScore_zero_fix {current : ℚ} (h1 : 0.1 ≤ current) (h2 : current ≤ 0.99)
    (h3 : threeDecimals current) (rate : ℚ) : updatedScore rate current 0 = current := by
  rw [updatedScore_zero h1 h2, round3_fix h3]

theorem updatedScore_zero_close {current : ℚ} (h1 : 0.1 ≤ current) (h2 : current ≤ 0.99)
    (rate : ℚ) : |updatedScore rate current 0 - current| ≤ 1 / 2000 := by
  rw [updatedScore_zero h1 h2]
  exact round3_close current

/-! ## Claim C3: the learning-rate schedule -/

/-- C3: the learning rate of every update call is
`max(0.05, 0.3 / (1 + observations * 0.01))`; it is monotonically
non-increasing in the observation count, always at least `0.05`, equal to
`0.3` at 0 observations and `0.15` at 100, and settles at exactly `0.05`
from 500 observations on (hence tends to `0.05` as observations grow
without bound). -/
theorem learning_rate_spec :
    (∀ n : ℕ, learning_rate n = max 0.05 (0.3 / (1 + (n : ℚ) * 0.01)))
    ∧ Antitone learning_rate
    ∧ (∀ n : ℕ, 0.05 ≤ learning_rate n)
    ∧ learning_rate 0 = 0.3
    ∧ learning_rate 100 = 0.15
    ∧ (∀ n : ℕ, 500 ≤ n → learning_rate n = 0.05) := by
  refine ⟨fun n => rfl, ?_, ?_, ?_, ?_, ?_⟩
  · intro m n hmn
    unfold learning_rate
    refine max_le_max le_rfl ?_
    have hm : (0 : ℚ) ≤ (m : ℚ) := Nat.cast_nonneg m
    have hc : (m : ℚ) ≤ (n : ℚ) := Nat.cast_le.mpr hmn
    exact div_le_div_of_nonneg_left (by norm_num) (by linarith) (by linarith)
  · intro n
    exact le_max_left _ _
  · unfold learning_rate
    rw [show ((0 : ℕ) : ℚ) = 0 from rfl,
      show (0.3 : ℚ) / (1 + 0 * 0.01) = 0.3 by norm_num]
    exact max_eq_right (by norm_num)
  · unfold learning_rate
    rw [show (0.3 : ℚ) / (1 + (100 : ℕ) * 0.01) = 0.15 by norm_num]
    exact max_eq_right (by norm_num)
  · intro n hn
    unfold learning_rate
    have hc : (500 : ℚ) ≤ (n : ℚ) := by exact_mod_cast hn
    refine max_eq_left ?_
    rw [div_le_iff (by linarith)]
    linarith

/-- Witness for C3: the learning rate is antitone between 3 and 5
observations and equals 0.05 at 600 observations. -/
theorem learning_rate_spec_witness :
    learning_rate 5 ≤ learning_rate 3 ∧ learning_rate 600 = 0.05 :=
  ⟨learning_rate_spec.2.1 (show (3 : ℕ) ≤ 5 by norm_num),
   learning_rate_spec.2.2.2.2.2 600 (by norm_num)⟩

/-! ## Claim C9: the observation counter -/

/-- C9: each `update_affinity` call increments `observations` by exactly
one, regardless of how many module pairs it touches (including zero), so
over any sequence of update calls the counter grows by exactly the number
of calls and is monotonically non-decreasing; the read-only operations
(`classify_task`, `get_best_modules`, `load_affinity_matrix`) take no
state and change none. -/
theorem update_affinity_observations :
    (∀ (skill task_type : String) (modules : List (String × String)) (delta : ℚ)
        (now : String) (s : AffinityState),
      (update_affinity skill task_type modules delta now s).observations = s.observations + 1)
    ∧ (∀ (skill task_type : String) (delta : ℚ) (now : String) (s : AffinityState),
      (update_affinity skill task_type [] delta now s).observations = s.observations + 1)
    ∧ (∀ (calls : List UpdateCall) (s : AffinityState),
      (applyUpdates calls s).observations = s.observations + calls.length)
    ∧ (∀ (calls : List UpdateCall) (s : AffinityState),
      s.observations ≤ (applyUpdates calls s).observations) := by
  have hone : ∀ (skill task_type : String) (modules : List (String × String)) (delta : ℚ)
      (now : String) (s : AffinityState),
      (update_affinity skill task_type modules delta now s).observations = s.observations + 1 :=
    fun _ _ _ _ _ _ => rfl
  have hseq : ∀ (calls : List UpdateCall) (s : AffinityState),
      (applyUpdates calls s).observations = s.observations + calls.length := by
    intro calls
    induction calls with
    | nil => intro s; rfl
    | cons c rest ih =>
      intro s
      have h1 : applyUpdates (c :: rest) s =
          applyUpdates rest (update_affinity c.skill c.task_type c.modules c.fitness_delta c.now s) :=
        rfl
      rw [h1, ih, hone]
      rw [List.length_cons]
      omega
  refine ⟨hone, fun skill task_type delta now s => hone skill task_type [] delta now s, hseq, ?_⟩
  intro calls s
  rw [hseq]
  omega

/-! ## Claim C10: the skill argument is dead -/

/-- C10: the `skill` argument of `update_affinity` has no effect: for any
two skill strings and otherwise identical arguments and starting state,
the resulting states (matrix, observations and timestamp) are identical. -/
theorem update_affinity_skill_irrelevant (skill₁ skill₂ task_type : String)
    (modules : List (String × String)) (fitness_delta : ℚ) (now : String)
    (s : AffinityState) :
    update_affinity skill₁ task_type modules fitness_delta now s
      = update_affinity skill₂ task_type modules fitness_delta now s := rfl

/-! ## Claim C6: loading persisted state -/

/-- C6 counterexample: a file that parses as JSON but violates the schema
(here the bare number `1`) is returned to the caller as-is by
`load_affinity_matrix`, not replaced by the seed default state. -/
theorem load_affinity_matrix_schema_violation :
    load_affinity_matrix (some (some (JsonValue.num 1))) = JsonValue.num 1
    ∧ load_affinity_matrix (some (some (JsonValue.num 1))) ≠ DEFAULT_STATE_JSON := by
  refine ⟨rfl, ?_⟩
  intro h
  have h2 := congrArg jsonIsNum h
  simp only [load_affinity_matrix, DEFAULT_STATE_JSON, jsonIsNum] at h2
  exact Bool.noConfusion h2

/-- C6 (amended): `load_affinity_matrix` is a total function that never
raises; on a missing file or a parse failure it returns the seed default
state (the hardcoded default matrix, observations = 0, last_updated null);
a file that parses successfully is returned unchanged whatever its shape —
schema violations are not detected. -/
theorem load_affinity_matrix_defaults :
    load_affinity_matrix none = DEFAULT_STATE_JSON
    ∧ load_affinity_matrix (some none) = DEFAULT_STATE_JSON
    ∧ (∀ j : JsonValue, load_affinity_matrix (some (some j)) = j)
    ∧ DEFAULT_STATE_JSON =
        JsonValue.obj
          [("matrix", matrixToJson DEFAULT_AFFINITY),
           ("observations", JsonValue.num 0),
           ("last_updated", JsonValue.null)] :=
  ⟨rfl, rfl, fun _ => rfl, rfl⟩

/-! ## Claim C2: the task classifier -/

/-- Defining equation of `classify_task` with the scores list exposed. -/
theorem classify_task_eq (context : String) :
    classify_task context =
      match TASK_PATTERNS.filterMap (classifyStep context) with
      | [] => "generation"
      | s :: rest => (pickFirst s rest).1 := rfl

/-- Entries of the scores list are exactly the task types with a positive
keyword count. -/
theorem classifyStep_eq_some {context : String} {tk : String × List String}
    {b : String × ℕ} (h : classifyStep context tk = some b) :
    b = (tk.1, typeScore context tk.2) ∧ 0 < typeScore context tk.2 := by
  unfold classifyStep at h
  by_cases hpos : 0 < typeScore context tk.2
  · rw [if_pos hpos] at h
    injection h with h2
    exact ⟨h2.symm, hpos⟩
  · rw [if_neg hpos] at h
    cases h

/-- C2: `classify_task` lower-cases the text, counts for each task type
how many of its keywords occur as substrings (each keyword counted at most
once), and returns a task type with the maximal count which is positive
and strictly exceeds the count of every task type listed earlier in
`TASK_PATTERNS`; when every count is zero it returns the fallback
`"generation"`. It is a total function of the input string. -/
theorem classify_task_first_max (context : String) :
    ((∀ tk ∈ TASK_PATTERNS, typeScore context tk.2 = 0) → classify_task context = "generation")
    ∧ ((∃ tk ∈ TASK_PATTERNS, 0 < typeScore context tk.2) →
        ∃ l₁ tk l₂, TASK_PATTERNS = l₁ ++ tk :: l₂
          ∧ classify_task context = tk.1
          ∧ 0 < typeScore context tk.2
          ∧ (∀ tk₀ ∈ TASK_PATTERNS, typeScore context tk₀.2 ≤ typeScore context tk.2)
          ∧ (∀ tk₀ ∈ l₁, typeScore context tk₀.2 < typeScore context tk.2)) := by
  constructor
  · intro hz
    have hS : TASK_PATTERNS.filterMap (classifyStep context) = [] := by
      rw [List.filterMap_eq_nil_iff]
      intro tk htk
      unfold classifyStep
      rw [if_neg]
      rw [hz tk htk]
      omega
    rw [classify_task_eq, hS]
  · intro hpos
    cases hS : TASK_PATTERNS.filterMap (classifyStep context) with
    | nil =>
      obtain ⟨tk, htk, hp⟩ := hpos
      have hnone := List.filterMap_eq_nil_iff.mp hS tk htk
      unfold classifyStep at hnone
      rw [if_pos hp] at hnone
      cases hnone
    | cons s rest =>
      obtain ⟨h1, h2, h3⟩ := pickFirst_spec rest s
      have hSmem : ∀ y ∈ s :: rest, y.2 ≤ (pickFirst s rest).2 := by
        intro y hy
        rcases List.mem_cons.mp hy with h | h
        · rw [h]; exact h1
        · exact h2 y h
      have hdecomp : ∃ F₁ F₂, s :: rest = F₁ ++ (pickFirst s rest) :: F₂ ∧
          ∀ y ∈ F₁, y.2 < (pickFirst s rest).2 := by
        rcases h3 with h3 | ⟨l₁, l₂, hl, hlt, hsmall⟩
        · exact ⟨[], rest, by rw [h3]; rfl, by intro y hy; simp at hy⟩
        · refine ⟨s :: l₁, l₂, by rw [List.cons_append, ← hl], ?_⟩
          intro y hy
          rcases List.mem_cons.mp hy with h | h
          · rw [h]; exact hlt
          · exact hsmall y h
      obtain ⟨F₁, F₂, hSsplit, hFsmall⟩ := hdecomp
      obtain ⟨l₁, tk, l₂, hpat, hstep, hmem⟩ :=
        filterMap_split (classifyStep context) TASK_PATTERNS F₁ (pickFirst s rest) F₂
          (by rw [hS, hSsplit])
      obtain ⟨hb, hbpos⟩ := classifyStep_eq_some hstep
      refine ⟨l₁, tk, l₂, hpat, ?_, hbpos, ?_, ?_⟩
      · rw [classify_task_eq, hS]
        show (pickFirst s rest).1 = tk.1
        rw [hb]
      · intro tk₀ htk₀
        by_cases hp₀ : 0 < typeScore context tk₀.2
        · have hin : (tk₀.1, typeScore context tk₀.2) ∈ TASK_PATTERNS.filterMap (classifyStep context) := by
            refine List.mem_filterMap.mpr ⟨tk₀, htk₀, ?_⟩
            unfold classifyStep
            rw [if_pos hp₀]
          rw [hS] at hin
          have hle := hSmem _ hin
          rw [hb] at hle
          exact hle
        · omega
      · intro tk₀ htk₀
        by_cases hp₀ : 0 < typeScore context tk₀.2
        · have hstep₀ : classifyStep context tk₀ = some (tk₀.1, typeScore context tk₀.2) := by
            unfold classifyStep
            rw [if_pos hp₀]
          have hin := hmem tk₀ htk₀ _ hstep₀
          have hlt := hFsmall _ hin
          rw [hb] at hlt
          exact hlt
        · have h0 : typeScore context tk₀.2 = 0 := by omega
          rw [h0]
          exact hbpos

/-- Witness for C2: `"lorem ipsum"` matches no keyword and classifies as
`"generation"`; `"fix the login bug"` has a positive-count classification
satisfying the first-maximum property. -/
theorem classify_task_first_max_witness :
    classify_task "lorem ipsum" = "generation"
    ∧ ∃ l₁ tk l₂, TASK_PATTERNS = l₁ ++ tk :: l₂
        ∧ classify_task "fix the login bug" = tk.1
        ∧ 0 < typeScore "fix the login bug" tk.2
        ∧ (∀ tk₀ ∈ TASK_PATTERNS,
            typeScore "fix the login bug" tk₀.2 ≤ typeScore "fix the login bug" tk.2)
        ∧ (∀ tk₀ ∈ l₁,
            typeScore "fix the login bug" tk₀.2 < typeScore "fix the login bug" tk.2) :=
  ⟨(classify_task_first_max "lorem ipsum").1 (by decide),
   (classify_task_first_max "fix the login bug").2 (by decide)⟩

/-! ## Claim C1: best-variant selection -/

/-- Once a variant has been selected, the scan of `get_best_modules`
coincides with the generic first-maximum fold over the effective scores. -/
theorem bestVariant_fold (task_type : String) :
    ∀ (vs : VariantScores) (a : String) (b : ℚ),
      vs.foldl
        (fun best y =>
          let score := effScore task_type y.2
          if best.2 < score then (some y.1, score) else best)
        (some a, b)
      = (some (pickFirst (a, b) (vs.map (fun y => (y.1, effScore task_type y.2)))).1,
         (pickFirst (a, b) (vs.map (fun y => (y.1, effScore task_type y.2)))).2) := by
  intro vs
  induction vs with
  | nil => intro a b; rfl
  | cons y vs ih =>
    intro a b
    show List.foldl
        (fun best y =>
          let score := effScore task_type y.2
          if best.2 < score then (some y.1, score) else best)
        (if b < effScore task_type y.2 then ((some y.1 : Option String), effScore task_type y.2)
          else ((some a : Option String), b)) vs
      = (some (pickFirst (if b < effScore task_type y.2 then (y.1, effScore task_type y.2) else (a, b))
            (vs.map (fun y => (y.1, effScore task_type y.2)))).1,
         (pickFirst (if b < effScore task_type y.2 then (y.1, effScore task_type y.2) else (a, b))
            (vs.map (fun y => (y.1, effScore task_type y.2)))).2)
    by_cases h : b < effScore task_type y.2
    · rw [if_pos h, if_pos h]
      exact ih y.1 (effScore task_type y.2)
    · rw [if_neg h, if_neg h]
      exact ih a b

/-- On a non-empty variant list whose first effective score beats the `-1`
sentinel, the scan returns the first-maximum variant. -/
theorem bestVariant_cons (task_type : String) (v₀ : String × TaskScores) (vs : VariantScores)
    (h0 : -1 < effScore task_type v₀.2) :
    bestVariant task_type (v₀ :: vs)
      = (some (pickFirst (v₀.1, effScore task_type v₀.2)
            (vs.map (fun y => (y.1, effScore task_type y.2)))).1,
         (pickFirst (v₀.1, effScore task_type v₀.2)
            (vs.map (fun y => (y.1, effScore task_type y.2)))).2) := by
  show List.foldl
      (fun best y =>
        let score := effScore task_type y.2
        if best.2 < score then (some y.1, score) else best)
      (if (-1 : ℚ) < effScore task_type v₀.2
        then ((some v₀.1 : Option String), effScore task_type v₀.2)
        else ((none : Option String), (-1 : ℚ))) vs
    = (some (pickFirst (v₀.1, effScore task_type v₀.2)
          (vs.map (fun y => (y.1, effScore task_type y.2)))).1,
       (pickFirst (v₀.1, effScore task_type v₀.2)
          (vs.map (fun y => (y.1, effScore task_type y.2)))).2)
  rw [if_pos h0]
  exact bestVariant_fold task_type vs v₀.1 (effScore task_type v₀.2)

/-- When every stored score exceeds `-1`, so does every effective score
(the default is `0.5`). -/
theorem effScore_gt_neg_one {task_type : String} {sc : TaskScores}
    (h : ∀ tq ∈ sc, (-1 : ℚ) < tq.2) : -1 < effScore task_type sc := by
  unfold effScore
  cases hlk : alookup task_type sc with
  | none => norm_num
  | some q =>
    have hq := h _ (alookup_mem hlk)
    simpa using hq

/-- The winner of the variant scan is either the starting pair or an
element of the scanned list. -/
theorem pickFirst_mem {β : Type} [LinearOrder β] (l : List (String × β)) (x : String × β) :
    pickFirst x l = x ∨ pickFirst x l ∈ l := by
  rcases (pickFirst_spec l x).2.2 with h | ⟨l₁, l₂, hl, _, _⟩
  · exact Or.inl h
  · have hmem := List.mem_append_right l₁ (List.mem_cons_self (pickFirst x l) l₂)
    rw [← hl] at hmem
    exact Or.inr hmem

/-- A module type with no variants fails the truthiness guard. -/
theorem bestStep_nil (task_type mt : String) : bestStep task_type mt [] = none := rfl

/-- On a non-empty variant list whose first effective score beats the `-1`
sentinel, the guard keeps the first-maximum winner exactly when its name
is not the falsy empty string. -/
theorem bestStep_cons (task_type mt : String) (v₀ : String × TaskScores) (vs : VariantScores)
    (h0 : -1 < effScore task_type v₀.2) :
    bestStep task_type mt (v₀ :: vs)
      = (if (pickFirst (v₀.1, effScore task_type v₀.2)
              (vs.map (fun y => (y.1, effScore task_type y.2)))).1 = ""
          then none
          else some (mt,
            (pickFirst (v₀.1, effScore task_type v₀.2)
              (vs.map (fun y => (y.1, effScore task_type y.2)))).1,
            (pickFirst (v₀.1, effScore task_type v₀.2)
              (vs.map (fun y => (y.1, effScore task_type y.2)))).2)) := by
  unfold bestStep
  rw [bestVariant_cons task_type v₀ vs h0]
  rfl

/-- C1 counterexample, two instances. First: on a matrix whose only
variant scores `-2` (below the `-1` starting sentinel of the scan),
`get_best_modules` omits the module type `"research"` even though it has a
variant. Second: on a matrix whose only variant is named `""` with score
`0.5` — every score above `-1` — the truthiness guard `if best_variant:`
is false for the empty string, so the module type `"m"` is omitted as
well. Both contradict the claim that only module types with zero variants
are omitted and that the highest-scoring variant is always returned. -/
theorem get_best_modules_omits_low_scores :
    (get_best_modules "planning" [("research", [("v1", [("planning", -2)])])] = []
      ∧ ("research", [("v1", [("planning", (-2 : ℚ))])]) ∈
          ([("research", [("v1", [("planning", (-2 : ℚ))])])] : AffinityMatrix)
      ∧ ([("v1", [("planning", (-2 : ℚ))])] : VariantScores) ≠ [])
    ∧ (get_best_modules "t" [("m", [("", [("t", 0.5)])])] = []
      ∧ ("m", [("", [("t", (0.5 : ℚ))])]) ∈
          ([("m", [("", [("t", (0.5 : ℚ))])])] : AffinityMatrix)
      ∧ ([("", [("t", (0.5 : ℚ))])] : VariantScores) ≠ []
      ∧ matrixScoresGtNegOne [("m", [("", [("t", (0.5 : ℚ))])])]) := by
  refine ⟨⟨?_, List.mem_singleton.mpr rfl, List.cons_ne_nil _ _⟩,
    ⟨?_, List.mem_singleton.mpr rfl, List.cons_ne_nil _ _, ?_⟩⟩
  · have heff : effScore "planning" [("planning", (-2 : ℚ))] = -2 := rfl
    have hbv : bestVariant "planning" [("v1", [("planning", (-2 : ℚ))])]
        = ((none : Option String), (-1 : ℚ)) := by
      show (if (-1 : ℚ) < effScore "planning" [("planning", (-2 : ℚ))]
          then ((some "v1" : Option String), effScore "planning" [("planning", (-2 : ℚ))])
          else ((none : Option String), (-1 : ℚ)))
        = ((none : Option String), (-1 : ℚ))
      rw [heff]
      rw [if_neg (by norm_num)]
    have hstep : (fun (mv : String × VariantScores) => bestStep "planning" mv.1 mv.2)
        ("research", [("v1", [("planning", (-2 : ℚ))])]) = none := by
      show bestStep "planning" "research" [("v1", [("planning", (-2 : ℚ))])] = none
      unfold bestStep
      rw [hbv]
      rfl
    unfold get_best_modules
    rw [@List.filterMap_cons_none (String × VariantScores) (String × String × ℚ)
      (fun mv => bestStep "planning" mv.1 mv.2)
      ("research", [("v1", [("planning", (-2 : ℚ))])]) [] hstep]
    rw [List.filterMap_nil]
  · have heff : effScore "t" [("t", (0.5 : ℚ))] = 0.5 := rfl
    have hbv : bestVariant "t" [("", [("t", (0.5 : ℚ))])]
        = ((some "" : Option String), (0.5 : ℚ)) := by
      show (if (-1 : ℚ) < effScore "t" [("t", (0.5 : ℚ))]
          then ((some "" : Option String), effScore "t" [("t", (0.5 : ℚ))])
          else ((none : Option String), (-1 : ℚ)))
        = ((some "" : Option String), (0.5 : ℚ))
      rw [heff]
      rw [if_pos (by norm_num)]
    have hstep : (fun (mv : String × VariantScores) => bestStep "t" mv.1 mv.2)
        ("m", [("", [("t", (0.5 : ℚ))])]) = none := by
      show bestStep "t" "m" [("", [("t", (0.5 : ℚ))])] = none
      unfold bestStep
      rw [hbv]
      rfl
    unfold get_best_modules
    rw [@List.filterMap_cons_none (String × VariantScores) (String × String × ℚ)
      (fun mv => bestStep "t" mv.1 mv.2) ("m", [("", [("t", (0.5 : ℚ))])]) [] hstep]
    rw [List.filterMap_nil]
  · intro mv hmv vsc hvsc tq htq
    simp only [List.mem_cons, List.not_mem_nil, or_false] at hmv
    subst hmv
    simp only [List.mem_cons, List.not_mem_nil, or_false] at hvsc
    subst hvsc
    simp only [List.mem_cons, List.not_mem_nil, or_false] at htq
    subst htq
    norm_num

/-- C1 (amended): for every task type and every matrix all of whose stored
scores exceed `-1` and all of whose variant identifiers are non-empty
strings (both true of every real affinity state: scores lie in the
invariant interval `[0.1, 0.99]` with default `0.5`, and variants are
named `"v1"`, `"v2"`, …), `get_best_modules` keeps exactly the module
types with at least one variant, in matrix order, and for each returns
the winning variant: its effective score (stored score, or `0.5` when
absent) is maximal among the module type's variants and strictly exceeds
the effective score of every variant listed earlier, so equal scores
resolve to the first variant in declaration order. Without those bounds
the code omits further module types: when every effective score is `≤ -1`,
or when the winning variant is the falsy name `""`. -/
theorem get_best_modules_first_max (task_type : String) (matrix : AffinityMatrix)
    (h : matrixScoresGtNegOne matrix)
    (hnm : ∀ mv ∈ matrix, ∀ vsc ∈ mv.2, vsc.1 ≠ "") :
    ((get_best_modules task_type matrix).map Prod.fst
      = (matrix.filter (fun mv => !List.isEmpty mv.2)).map Prod.fst)
    ∧ ∀ p ∈ get_best_modules task_type matrix,
        ∃ vs l₁ sc l₂, (p.1, vs) ∈ matrix ∧ vs = l₁ ++ (p.2.1, sc) :: l₂
          ∧ p.2.2 = effScore task_type sc
          ∧ (∀ y ∈ vs, effScore task_type y.2 ≤ p.2.2)
          ∧ (∀ y ∈ l₁, effScore task_type y.2 < p.2.2) := by
  constructor
  · induction matrix with
    | nil => rfl
    | cons mv rest ih =>
      have hrest : matrixScoresGtNegOne rest := by
        intro mv₀ hmv₀
        exact h mv₀ (List.mem_cons_of_mem mv hmv₀)
      have hnmrest : ∀ mv₀ ∈ rest, ∀ vsc ∈ mv₀.2, vsc.1 ≠ "" := by
        intro mv₀ hmv₀
        exact hnm mv₀ (List.mem_cons_of_mem mv hmv₀)
      have ih2 := ih hrest hnmrest
      unfold get_best_modules at ih2 ⊢
      rw [List.filterMap_cons, List.filter_cons]
      cases hvs : mv.2 with
      | nil =>
        rw [bestStep_nil]
        simpa using ih2
      | cons v₀ vs =>
        have h0 : -1 < effScore task_type v₀.2 := by
          refine effScore_gt_neg_one ?_
          intro tq htq
          refine h mv (List.mem_cons_self mv rest) v₀ ?_ tq htq
          rw [hvs]
          exact List.mem_cons_self v₀ vs
        have hbase : ∀ y ∈ v₀ :: vs, y.1 ≠ "" := by
          intro y hy
          refine hnm mv (List.mem_cons_self mv rest) y ?_
          rw [hvs]
          exact hy
        have hwin : (pickFirst (v₀.1, effScore task_type v₀.2)
            (vs.map (fun y => (y.1, effScore task_type y.2)))).1 ≠ "" := by
          rcases pickFirst_mem (vs.map (fun y => (y.1, effScore task_type y.2)))
              (v₀.1, effScore task_type v₀.2) with hc | hc
          · rw [hc]
            exact hbase v₀ (List.mem_cons_self v₀ vs)
          · obtain ⟨y, hy, hye⟩ := List.mem_map.mp hc
            rw [← hye]
            exact hbase y (List.mem_cons_of_mem v₀ hy)
        rw [bestStep_cons task_type mv.1 v₀ vs h0, if_neg hwin]
        simp only [List.isEmpty_cons, Bool.not_false, if_true, List.map_cons]
        rw [ih2]
  · intro p hp
    obtain ⟨mv, hmv, hsome⟩ := List.mem_filterMap.mp hp
    cases hvs : mv.2 with
    | nil =>
      rw [hvs, bestStep_nil] at hsome
      cases hsome
    | cons v₀ vs =>
      have hscores : ∀ vsc ∈ mv.2, ∀ tq ∈ vsc.2, (-1 : ℚ) < tq.2 := h mv hmv
      have h0 : -1 < effScore task_type v₀.2 := by
        refine effScore_gt_neg_one ?_
        intro tq htq
        refine hscores v₀ ?_ tq htq
        rw [hvs]
        exact List.mem_cons_self v₀ vs
      rw [hvs, bestStep_cons task_type mv.1 v₀ vs h0] at hsome
      by_cases hwe : (pickFirst (v₀.1, effScore task_type v₀.2)
          (vs.map (fun y => (y.1, effScore task_type y.2)))).1 = ""
      · rw [if_pos hwe] at hsome
        cases hsome
      · rw [if_neg hwe] at hsome
        injection hsome with hsome
        obtain ⟨h1, h2, h3⟩ := pickFirst_spec (vs.map (fun y => (y.1, effScore task_type y.2)))
          (v₀.1, effScore task_type v₀.2)
        set m := pickFirst (v₀.1, effScore task_type v₀.2)
          (vs.map (fun y => (y.1, effScore task_type y.2))) with hm
        have hp1 : p.1 = mv.1 := by rw [← hsome]
        have hp21 : p.2.1 = m.1 := by rw [← hsome]
        have hp22 : p.2.2 = m.2 := by rw [← hsome]
        have hmv2 : (p.1, mv.2) ∈ matrix := by
          rw [hp1]
          have : (mv.1, mv.2) = mv := rfl
          rw [this]
          exact hmv
        have hboundvs : ∀ y ∈ v₀ :: vs, effScore task_type y.2 ≤ m.2 := by
          intro y hy
          rcases List.mem_cons.mp hy with hcase | hcase
          · rw [hcase]; exact h1
          · exact h2 (y.1, effScore task_type y.2) (List.mem_map_of_mem _ hcase)
        rcases h3 with hcase | ⟨f₁, f₂, hfsplit, hflt, hfsmall⟩
        · refine ⟨mv.2, [], v₀.2, vs, hmv2, ?_, ?_, ?_, ?_⟩
          · rw [hvs, List.nil_append]
            have hv : (p.2.1, v₀.2) = v₀ := by
              rw [hp21, hcase]
            rw [hv]
          · rw [hp22, hcase]
          · intro y hy
            rw [hp22]
            rw [hvs] at hy
            exact hboundvs y hy
          · intro y hy
            simp at hy
        · have hfm : vs.filterMap (fun y => some (y.1, effScore task_type y.2)) = f₁ ++ m :: f₂ := by
            rw [show (fun (y : String × TaskScores) => some (y.1, effScore task_type y.2))
                = some ∘ (fun y => (y.1, effScore task_type y.2)) from rfl, List.filterMap_eq_map]
            exact hfsplit
          obtain ⟨l₁, a, l₂, hvsplit, ha, hamem⟩ :=
            filterMap_split (fun y => some (y.1, effScore task_type y.2)) vs f₁ m f₂ hfm
          injection ha with ha
          refine ⟨mv.2, v₀ :: l₁, a.2, l₂, hmv2, ?_, ?_, ?_, ?_⟩
          · rw [hvs, hvsplit]
            have hv : (p.2.1, a.2) = a := by
              rw [hp21, ← ha]
            rw [hv, List.cons_append]
          · rw [hp22, ← ha]
          · intro y hy
            rw [hp22]
            rw [hvs] at hy
            exact hboundvs y hy
          · intro y hy
            rw [hp22]
            rcases List.mem_cons.mp hy with hcase | hcase
            · rw [hcase]; exact hflt
            · exact hfsmall _ (hamem y hcase _ rfl)

/-- Witness for C1: on a concrete two-variant matrix with scores above
`-1`, the amended first-maximum characterization holds for task type
`"t"`. -/
theorem get_best_modules_first_max_witness :
    ((get_best_modules "t" [("m", [("v1", [("t", 0.7)]), ("v2", [("t", 0.9)])])]).map Prod.fst
      = (([("m", [("v1", [("t", (0.7 : ℚ))]), ("v2", [("t", (0.9 : ℚ))])])] : AffinityMatrix).filter
          (fun mv => !List.isEmpty mv.2)).map Prod.fst)
    ∧ ∀ p ∈ get_best_modules "t" [("m", [("v1", [("t", 0.7)]), ("v2", [("t", 0.9)])])],
        ∃ vs l₁ sc l₂,
          (p.1, vs) ∈ ([("m", [("v1", [("t", (0.7 : ℚ))]), ("v2", [("t", (0.9 : ℚ))])])] : AffinityMatrix)
          ∧ vs = l₁ ++ (p.2.1, sc) :: l₂
          ∧ p.2.2 = effScore "t" sc
          ∧ (∀ y ∈ vs, effScore "t" y.2 ≤ p.2.2)
          ∧ (∀ y ∈ l₁, effScore "t" y.2 < p.2.2) :=
  get_best_modules_first_max "t" [("m", [("v1", [("t", 0.7)]), ("v2", [("t", 0.9)])])]
    (by
      intro mv hmv vsc hvsc tq htq
      simp only [List.mem_cons, List.not_mem_nil, or_false] at hmv
      subst hmv
      simp only [List.mem_cons, List.not_mem_nil, or_false] at hvsc
      rcases hvsc with h | h <;> subst h <;>
        simp only [List.mem_cons, List.not_mem_nil, or_false] at htq <;>
        subst htq <;> norm_num)
    (by decide)

/-! ## Update-loop lemmas -/

theorem lookupScore_eq (matrix : AffinityMatrix) (mt v tt : String) :
    lookupScore matrix mt v tt
      = (alookup mt matrix).bind (fun vs => (alookup v vs).bind (fun sc => alookup tt sc)) := rfl

theorem knownPair_eq (m : AffinityMatrix) (q : String × String) :
    knownPair m q = ((alookup q.1 m).bind (fun vs => alookup q.2 vs)).isSome := rfl

/-- The two possible outcomes of one iteration of the update loop: either
the pair is unknown and the matrix is untouched, or both lookups succeed
and exactly one innermost entry is written. -/
theorem updatePair_cases (task_type : String) (fitness_delta rate : ℚ)
    (m : AffinityMatrix) (p : String × String) :
    (updatePair task_type fitness_delta rate m p = m ∧ knownPair m p = false)
    ∨ ∃ variants scores,
        alookup p.1 m = some variants ∧ alookup p.2 variants = some scores ∧
        updatePair task_type fitness_delta rate m p =
          aset p.1 (aset p.2 (aset task_type
            (updatedScore rate ((alookup task_type scores).getD 0.5) fitness_delta) scores)
            variants) m := by
  unfold updatePair
  split
  next h1 =>
    left
    refine ⟨rfl, ?_⟩
    rw [knownPair_eq, h1]
    rfl
  next variants h1 =>
    split
    next h2 =>
      left
      refine ⟨rfl, ?_⟩
      rw [knownPair_eq, h1, Option.some_bind, h2]
      rfl
    next scores h2 =>
      right
      exact ⟨variants, scores, h1, h2, rfl⟩

theorem updatePair_unknown (task_type : String) (fitness_delta rate : ℚ)
    (m : AffinityMatrix) (p : String × String) (h : knownPair m p = false) :
    updatePair task_type fitness_delta rate m p = m := by
  rcases updatePair_cases task_type fitness_delta rate m p with ⟨heq, _⟩ | ⟨vs, sc, h1, h2, heq⟩
  · exact heq
  · exfalso
    rw [knownPair_eq, h1, Option.some_bind, h2] at h
    simp at h

theorem updatePair_frame (task_type : String) (fitness_delta rate : ℚ)
    (m : AffinityMatrix) (p : String × String) (mt v tt : String)
    (hne : mt ≠ p.1 ∨ v ≠ p.2 ∨ tt ≠ task_type) :
    lookupScore (updatePair task_type fitness_delta rate m p) mt v tt
      = lookupScore m mt v tt := by
  rcases updatePair_cases task_type fitness_delta rate m p with ⟨heq, _⟩ | ⟨variants, scores, h1, h2, heq⟩
  · rw [heq]
  · rw [heq, lookupScore_eq, lookupScore_eq]
    by_cases hmt : mt = p.1
    · subst hmt
      rw [alookup_aset_self, h1, Option.some_bind, Option.some_bind]
      by_cases hv : v = p.2
      · subst hv
        rw [alookup_aset_self, h2, Option.some_bind, Option.some_bind]
        have htt : tt ≠ task_type := by
          rcases hne with h | h | h
          · exact absurd rfl h
          · exact absurd rfl h
          · exact h
        rw [alookup_aset_ne htt]
      · rw [alookup_aset_ne hv]
    · rw [alookup_aset_ne hmt]

theorem updatePair_grow (task_type : String) (fitness_delta rate : ℚ)
    (m : AffinityMatrix) (p : String × String) (mt v tt : String) (q : ℚ)
    (hq : lookupScore m mt v tt = some q) :
    ∃ q₀, lookupScore (updatePair task_type fitness_delta rate m p) mt v tt = some q₀ := by
  rcases updatePair_cases task_type fitness_delta rate m p with ⟨heq, _⟩ | ⟨variants, scores, h1, h2, heq⟩
  · exact ⟨q, by rw [heq]; exact hq⟩
  · rw [heq, lookupScore_eq]
    rw [lookupScore_eq] at hq
    by_cases hmt : mt = p.1
    · subst hmt
      rw [h1, Option.some_bind] at hq
      rw [alookup_aset_self, Option.some_bind]
      by_cases hv : v = p.2
      · subst hv
        rw [h2, Option.some_bind] at hq
        rw [alookup_aset_self, Option.some_bind]
        by_cases htt : tt = task_type
        · subst htt
          exact ⟨_, by rw [alookup_aset_self]⟩
        · exact ⟨q, by rw [alookup_aset_ne htt]; exact hq⟩
      · exact ⟨q, by rw [alookup_aset_ne hv]; exact hq⟩
    · exact ⟨q, by rw [alookup_aset_ne hmt]; exact hq⟩

theorem updatePair_akeys (task_type : String) (fitness_delta rate : ℚ)
    (m : AffinityMatrix) (p : String × String) :
    akeys (updatePair task_type fitness_delta rate m p) = akeys m := by
  rcases updatePair_cases task_type fitness_delta rate m p with ⟨heq, _⟩ | ⟨variants, scores, h1, h2, heq⟩
  · rw [heq]
  · rw [heq]
    exact akeys_aset_of_lookup _ h1

theorem updatePair_variant_keys (task_type : String) (fitness_delta rate : ℚ)
    (m : AffinityMatrix) (p : String × String) (mt : String) :
    (alookup mt (updatePair task_type fitness_delta rate m p)).map akeys
      = (alookup mt m).map akeys := by
  rcases updatePair_cases task_type fitness_delta rate m p with ⟨heq, _⟩ | ⟨variants, scores, h1, h2, heq⟩
  · rw [heq]
  · rw [heq]
    by_cases hmt : mt = p.1
    · subst hmt
      rw [alookup_aset_self, h1]
      show some (akeys (aset p.2 (aset task_type
          (updatedScore rate ((alookup task_type scores).getD 0.5) fitness_delta) scores) variants))
        = some (akeys variants)
      rw [akeys_aset_of_lookup _ h2]
    · rw [alookup_aset_ne hmt]

theorem knownPair_updatePair (task_type : String) (fitness_delta rate : ℚ)
    (m : AffinityMatrix) (p q : String × String) :
    knownPair (updatePair task_type fitness_delta rate m p) q = knownPair m q := by
  rcases updatePair_cases task_type fitness_delta rate m p with ⟨heq, _⟩ | ⟨variants, scores, h1, h2, heq⟩
  · rw [heq]
  · rw [heq, knownPair_eq, knownPair_eq]
    by_cases hq1 : q.1 = p.1
    · rw [hq1, alookup_aset_self, h1, Option.some_bind, Option.some_bind]
      by_cases hq2 : q.2 = p.2
      · rw [hq2, alookup_aset_self, h2]
        rfl
      · rw [alookup_aset_ne hq2]
    · rw [alookup_aset_ne hq1]

theorem foldl_filter_skip {α β : Type} (step : α → β → α) (P : α → β → Bool)
    (hskip : ∀ m p, P m p = false → step m p = m)
    (hinv : ∀ m p q, P (step m p) q = P m q) :
    ∀ (l : List β) (m : α), l.foldl step m = (l.filter (P m)).foldl step m := by
  intro l
  induction l with
  | nil => intro m; rfl
  | cons a l ih =>
    intro m
    rw [List.foldl_cons, List.filter_cons]
    by_cases hpa : P m a = true
    · rw [if_pos hpa, List.foldl_cons]
      have hfeq : l.filter (P (step m a)) = l.filter (P m) :=
        List.filter_congr (fun x _ => hinv m a x)
      rw [ih (step m a), hfeq]
    · have hfalse : P m a = false := by
        cases hP : P m a
        · rfl
        · exact absurd hP hpa
      rw [if_neg hpa, hskip m a hfalse]
      exact ih m

theorem foldl_updatePair_frame (task_type : String) (fitness_delta rate : ℚ) (mt v tt : String) :
    ∀ (l : List (String × String)) (m : AffinityMatrix),
      ((mt, v) ∉ l ∨ tt ≠ task_type) →
      lookupScore (l.foldl (updatePair task_type fitness_delta rate) m) mt v tt
        = lookupScore m mt v tt := by
  intro l
  induction l with
  | nil => intro m _; rfl
  | cons a l ih =>
    intro m h
    rw [List.foldl_cons]
    have hstep : lookupScore (updatePair task_type fitness_delta rate m a) mt v tt
        = lookupScore m mt v tt := by
      apply updatePair_frame
      rcases h with h | h
      · have hpair : (mt, v) ≠ a := fun hc => h (by rw [hc]; exact List.mem_cons_self a l)
        by_cases hmt : mt = a.1
        · refine Or.inr (Or.inl ?_)
          intro hv
          apply hpair
          rw [hmt, hv]
        · exact Or.inl hmt
      · exact Or.inr (Or.inr h)
    have htail : ((mt, v) ∉ l ∨ tt ≠ task_type) := by
      rcases h with h | h
      · exact Or.inl (fun hc => h (List.mem_cons_of_mem a hc))
      · exact Or.inr h
    rw [ih (updatePair task_type fitness_delta rate m a) htail, hstep]

theorem foldl_updatePair_akeys (task_type : String) (fitness_delta rate : ℚ) :
    ∀ (l : List (String × String)) (m : AffinityMatrix),
      akeys (l.foldl (updatePair task_type fitness_delta rate) m) = akeys m := by
  intro l
  induction l with
  | nil => intro m; rfl
  | cons a l ih =>
    intro m
    rw [List.foldl_cons, ih, updatePair_akeys]

theorem foldl_updatePair_variant_keys (task_type : String) (fitness_delta rate : ℚ) (mt : String) :
    ∀ (l : List (String × String)) (m : AffinityMatrix),
      (alookup mt (l.foldl (updatePair task_type fitness_delta rate) m)).map akeys
        = (alookup mt m).map akeys := by
  intro l
  induction l with
  | nil => intro m; rfl
  | cons a l ih =>
    intro m
    rw [List.foldl_cons, ih, updatePair_variant_keys]

theorem foldl_updatePair_grow (task_type : String) (fitness_delta rate : ℚ) (mt v tt : String) :
    ∀ (l : List (String × String)) (m : AffinityMatrix) (q : ℚ),
      lookupScore m mt v tt = some q →
      ∃ q₀, lookupScore (l.foldl (updatePair task_type fitness_delta rate) m) mt v tt = some q₀ := by
  intro l
  induction l with
  | nil => intro m q hq; exact ⟨q, hq⟩
  | cons a l ih =>
    intro m q hq
    rw [List.foldl_cons]
    obtain ⟨q₁, hq₁⟩ := updatePair_grow task_type fitness_delta rate m a mt v tt q hq
    exact ih (updatePair task_type fitness_delta rate m a) q₁ hq₁

theorem updatePair_range (task_type : String) (fitness_delta rate : ℚ)
    (m : AffinityMatrix) (p : String × String) (h : matrixInRange m) :
    matrixInRange (updatePair task_type fitness_delta rate m p) := by
  rcases updatePair_cases task_type fitness_delta rate m p with ⟨heq, _⟩ | ⟨variants, scores, h1, h2, heq⟩
  · rw [heq]; exact h
  · rw [heq]
    intro mv hmv vsc hvsc tq htq
    rcases mem_aset hmv with hmv1 | hmv1
    · rw [hmv1] at hvsc
      rcases mem_aset hvsc with hvsc1 | hvsc1
      · rw [hvsc1] at htq
        rcases mem_aset htq with htq1 | htq1
        · rw [htq1]
          exact updatedScore_mem rate ((alookup task_type scores).getD 0.5) fitness_delta
        · exact h _ (alookup_mem h1) _ (alookup_mem h2) _ htq1
      · exact h _ (alookup_mem h1) _ hvsc1 _ htq
    · exact h _ hmv1 _ hvsc _ htq

theorem foldl_updatePair_range (task_type : String) (fitness_delta rate : ℚ) :
    ∀ (l : List (String × String)) (m : AffinityMatrix),
      matrixInRange m →
      matrixInRange (l.foldl (updatePair task_type fitness_delta rate) m) := by
  intro l
  induction l with
  | nil => intro m h; exact h
  | cons a l ih =>
    intro m h
    rw [List.foldl_cons]
    exact ih _ (updatePair_range task_type fitness_delta rate m a h)

theorem updatePair_zero_keep (task_type : String) (rate : ℚ)
    (m : AffinityMatrix) (p : String × String) (mt v : String) (q : ℚ)
    (hq : lookupScore m mt v task_type = some q)
    (h1q : 0.1 ≤ q) (h2q : q ≤ 0.99) (h3q : threeDecimals q) :
    lookupScore (updatePair task_type 0 rate m p) mt v task_type = some q := by
  by_cases hmt : mt = p.1
  · by_cases hv : v = p.2
    · subst hmt
      subst hv
      rcases updatePair_cases task_type 0 rate m p with ⟨heq, _⟩ | ⟨variants, scores, hl1, hl2, heq⟩
      · rw [heq]; exact hq
      · rw [heq, lookupScore_eq]
        rw [lookupScore_eq, hl1, Option.some_bind, hl2, Option.some_bind] at hq
        rw [alookup_aset_self, Option.some_bind, alookup_aset_self, Option.some_bind,
          alookup_aset_self, hq, Option.getD_some, updatedScore_zero_fix h1q h2q h3q rate]
    · rw [updatePair_frame task_type 0 rate m p mt v task_type (Or.inr (Or.inl hv))]
      exact hq
  · rw [updatePair_frame task_type 0 rate m p mt v task_type (Or.inl hmt)]
    exact hq

theorem foldl_updatePair_zero_keep (task_type : String) (rate : ℚ) (mt v : String) (q : ℚ)
    (h1q : 0.1 ≤ q) (h2q : q ≤ 0.99) (h3q : threeDecimals q) :
    ∀ (l : List (String × String)) (m : AffinityMatrix),
      lookupScore m mt v task_type = some q →
      lookupScore (l.foldl (updatePair task_type 0 rate) m) mt v task_type = some q := by
  intro l
  induction l with
  | nil => intro m hq; exact hq
  | cons a l ih =>
    intro m hq
    rw [List.foldl_cons]
    exact ih _ (updatePair_zero_keep task_type rate m a mt v q hq h1q h2q h3q)

/-- The seed default matrix satisfies the score invariant. -/
theorem default_matrixInRange : matrixInRange DEFAULT_AFFINITY := by
  simp only [matrixInRange, DEFAULT_AFFINITY, scoreInRange, List.forall_mem_cons,
    List.forall_mem_nil]
  norm_num

/-! ## Claim C4: scores stay in [0.1, 0.99] -/

/-- C4: every score written by the update rule lies in `[0.1, 0.99]`,
whatever the learning rate, current score and fitness delta (including
extreme deltas); the seed default matrix lies in `[0.1, 0.99]`; and the
invariant is preserved by every `update_affinity` call and hence by any
sequence of update calls. -/
theorem update_affinity_scores_in_range :
    (∀ rate current fitness_delta : ℚ, scoreInRange (updatedScore rate current fitness_delta))
    ∧ matrixInRange DEFAULT_AFFINITY
    ∧ (∀ (skill task_type : String) (modules : List (String × String)) (fitness_delta : ℚ)
        (now : String) (s : AffinityState), matrixInRange s.matrix →
        matrixInRange (update_affinity skill task_type modules fitness_delta now s).matrix)
    ∧ (∀ (calls : List UpdateCall) (s : AffinityState), matrixInRange s.matrix →
        matrixInRange (applyUpdates calls s).matrix) := by
  have hupd : ∀ (skill task_type : String) (modules : List (String × String)) (fitness_delta : ℚ)
      (now : String) (s : AffinityState), matrixInRange s.matrix →
      matrixInRange (update_affinity skill task_type modules fitness_delta now s).matrix := by
    intro skill task_type modules fitness_delta now s hs
    have hmx : (update_affinity skill task_type modules fitness_delta now s).matrix
        = modules.foldl (updatePair task_type fitness_delta (learning_rate s.observations))
            s.matrix := rfl
    rw [hmx]
    exact foldl_updatePair_range task_type fitness_delta (learning_rate s.observations)
      modules s.matrix hs
  refine ⟨updatedScore_mem, default_matrixInRange, hupd, ?_⟩
  intro calls
  induction calls with
  | nil => intro s hs; exact hs
  | cons c calls ih =>
    intro s hs
    have happ : applyUpdates (c :: calls) s
        = applyUpdates calls (update_affinity c.skill c.task_type c.modules c.fitness_delta c.now s) :=
      rfl
    rw [happ]
    exact ih _ (hupd c.skill c.task_type c.modules c.fitness_delta c.now s hs)

/-- Witness for C4: starting from the seed default state, the score
invariant survives an update with delta `+1000` and a sequence containing
an update with delta `-1000`. -/
theorem update_affinity_scores_in_range_witness :
    matrixInRange (update_affinity "s" "planning" [("research", "v1")] 1000 "t" defaultState).matrix
    ∧ matrixInRange
        (applyUpdates [⟨"s", "planning", [("research", "v1")], -1000, "t"⟩] defaultState).matrix :=
  ⟨update_affinity_scores_in_range.2.2.1 "s" "planning" [("research", "v1")] 1000 "t"
      defaultState default_matrixInRange,
   update_affinity_scores_in_range.2.2.2 [⟨"s", "planning", [("research", "v1")], -1000, "t"⟩]
      defaultState default_matrixInRange⟩

/-! ## Claim C5: zero-delta updates -/

/-- C5: an `update_affinity` call with `fitness_delta = 0` still increments
`observations` by exactly 1; a touched in-range score moves by at most
`1/2000` (one half of the rounding unit), is exactly unchanged when it has
at most 3 decimal places, and every stored in-range 3-decimal score at the
updated task type is left exactly unchanged in the matrix. -/
theorem update_affinity_zero_delta (skill task_type : String)
    (modules : List (String × String)) (now : String) (s : AffinityState) :
    (update_affinity skill task_type modules 0 now s).observations = s.observations + 1
    ∧ (∀ rate current : ℚ, 0.1 ≤ current → current ≤ 0.99 →
        |updatedScore rate current 0 - current| ≤ 1 / 2000)
    ∧ (∀ rate current : ℚ, 0.1 ≤ current → current ≤ 0.99 → threeDecimals current →
        updatedScore rate current 0 = current)
    ∧ (∀ (mt v : String) (q : ℚ), lookupScore s.matrix mt v task_type = some q →
        0.1 ≤ q → q ≤ 0.99 → threeDecimals q →
        lookupScore (update_affinity skill task_type modules 0 now s).matrix mt v task_type
          = some q) := by
  refine ⟨rfl, ?_, ?_, ?_⟩
  · intro rate current h1 h2
    exact updatedScore_zero_close h1 h2 rate
  · intro rate current h1 h2 h3
    exact updatedScore_zero_fix h1 h2 h3 rate
  · intro mt v q hq h1q h2q h3q
    have hmx : (update_affinity skill task_type modules 0 now s).matrix
        = modules.foldl (updatePair task_type 0 (learning_rate s.observations)) s.matrix := rfl
    rw [hmx]
    exact foldl_updatePair_zero_keep task_type (learning_rate s.observations) mt v q
      h1q h2q h3q modules s.matrix hq

/-- Witness for C5: a zero-delta update from the seed default state leaves
the score of `("research", "v1", "planning")` at exactly `0.72` while
incrementing `observations` to 1. -/
theorem update_affinity_zero_delta_witness :
    (update_affinity "s" "planning" [("research", "v1")] 0 "t" defaultState).observations = 0 + 1
    ∧ |updatedScore 0.3 0.72 0 - 0.72| ≤ 1 / 2000
    ∧ updatedScore 0.3 0.72 0 = 0.72
    ∧ lookupScore (update_affinity "s" "planning" [("research", "v1")] 0 "t" defaultState).matrix
        "research" "v1" "planning" = some 0.72 :=
  ⟨(update_affinity_zero_delta "s" "planning" [("research", "v1")] "t" defaultState).1,
   (update_affinity_zero_delta "s" "planning" [("research", "v1")] "t" defaultState).2.1
      0.3 0.72 (by norm_num) (by norm_num),
   (update_affinity_zero_delta "s" "planning" [("research", "v1")] "t" defaultState).2.2.1
      0.3 0.72 (by norm_num) (by norm_num) ⟨720, by norm_num⟩,
   (update_affinity_zero_delta "s" "planning" [("research", "v1")] "t" defaultState).2.2.2
      "research" "v1" 0.72 rfl (by norm_num) (by norm_num) ⟨720, by norm_num⟩⟩

/-! ## Claim C7: unknown pairs are skipped -/

/-- C7: a `(module_type, variant)` pair that is not present in the matrix
is a no-op for the update loop — no entry is created for it — and a whole
`update_affinity` call gives exactly the same state as the call restricted
to the known pairs, so the remaining pairs are still processed and the
call (a total function) never fails because of unknown identifiers. -/
theorem update_affinity_skips_unknown (skill task_type : String)
    (modules : List (String × String)) (fitness_delta : ℚ) (now : String) (s : AffinityState) :
    (∀ (p : String × String) (rate : ℚ) (m : AffinityMatrix),
        knownPair m p = false → updatePair task_type fitness_delta rate m p = m)
    ∧ update_affinity skill task_type modules fitness_delta now s
        = update_affinity skill task_type (modules.filter (knownPair s.matrix))
            fitness_delta now s := by
  constructor
  · intro p rate m h
    exact updatePair_unknown task_type fitness_delta rate m p h
  · have hm : modules.foldl (updatePair task_type fitness_delta (learning_rate s.observations))
        s.matrix
        = (modules.filter (knownPair s.matrix)).foldl
            (updatePair task_type fitness_delta (learning_rate s.observations)) s.matrix :=
      foldl_filter_skip (updatePair task_type fitness_delta (learning_rate s.observations))
        knownPair
        (fun m p h => updatePair_unknown task_type fitness_delta (learning_rate s.observations) m p h)
        (fun m p q => knownPair_updatePair task_type fitness_delta (learning_rate s.observations) m p q)
        modules s.matrix
    show AffinityState.mk
        (modules.foldl (updatePair task_type fitness_delta (learning_rate s.observations)) s.matrix)
        (s.observations + 1) (some now)
      = AffinityState.mk
          ((modules.filter (knownPair s.matrix)).foldl
            (updatePair task_type fitness_delta (learning_rate s.observations)) s.matrix)
          (s.observations + 1) (some now)
    rw [hm]

/-- Witness for C7: the unknown pair `("nope", "v9")` leaves the default
matrix untouched, and updating through it equals updating through the
filtered (empty) pair list. -/
theorem update_affinity_skips_unknown_witness :
    updatePair "planning" 1 0.3 DEFAULT_AFFINITY ("nope", "v9") = DEFAULT_AFFINITY
    ∧ update_affinity "s" "planning" [("nope", "v9")] 1 "t" defaultState
      = update_affinity "s" "planning"
          ([("nope", "v9")].filter (knownPair defaultState.matrix)) 1 "t" defaultState :=
  ⟨(update_affinity_skips_unknown "s" "planning" [("nope", "v9")] 1 "t" defaultState).1
      ("nope", "v9") 0.3 DEFAULT_AFFINITY rfl,
   (update_affinity_skips_unknown "s" "planning" [("nope", "v9")] 1 "t" defaultState).2⟩

/-! ## Claim C8: the update touches nothing else -/

/-- C8: an `update_affinity` call changes at most the entries
`(module_type, variant, task_type)` for the pairs listed in `modules` at
the exact `task_type` passed in: every other stored score is unchanged,
the module-type key list and each module type's variant key list are
unchanged, and no existing entry is ever deleted — every score present
before the call is still present (possibly adjusted) after it. -/
theorem update_affinity_frame (skill task_type : String)
    (modules : List (String × String)) (fitness_delta : ℚ) (now : String) (s : AffinityState) :
    (∀ mt v tt : String, ((mt, v) ∉ modules ∨ tt ≠ task_type) →
        lookupScore (update_affinity skill task_type modules fitness_delta now s).matrix mt v tt
          = lookupScore s.matrix mt v tt)
    ∧ akeys (update_affinity skill task_type modules fitness_delta now s).matrix
        = akeys s.matrix
    ∧ (∀ mt : String,
        (alookup mt (update_affinity skill task_type modules fitness_delta now s).matrix).map akeys
          = (alookup mt s.matrix).map akeys)
    ∧ (∀ (mt v tt : String) (q : ℚ), lookupScore s.matrix mt v tt = some q →
        ∃ q₀, lookupScore (update_affinity skill task_type modules fitness_delta now s).matrix
          mt v tt = some q₀) := by
  have hmx : (update_affinity skill task_type modules fitness_delta now s).matrix
      = modules.foldl (updatePair task_type fitness_delta (learning_rate s.observations))
          s.matrix := rfl
  refine ⟨?_, ?_, ?_, ?_⟩
  · intro mt v tt h
    rw [hmx]
    exact foldl_updatePair_frame task_type fitness_delta (learning_rate s.observations)
      mt v tt modules s.matrix h
  · rw [hmx]
    exact foldl_updatePair_akeys task_type fitness_delta (learning_rate s.observations)
      modules s.matrix
  · intro mt
    rw [hmx]
    exact foldl_updatePair_variant_keys task_type fitness_delta (learning_rate s.observations)
      mt modules s.matrix
  · intro mt v tt q hq
    rw [hmx]
    exact foldl_updatePair_grow task_type fitness_delta (learning_rate s.observations)
      mt v tt modules s.matrix q hq

/-- Witness for C8: updating `("research", "v1")` at `"planning"` from the
seed default state leaves the `("output", "v1", "planning")` score
untouched, preserves both levels of keys, and keeps the touched variant's
`"testing"` entry present. -/
theorem update_affinity_frame_witness :
    (lookupScore (update_affinity "s" "planning" [("research", "v1")] 1 "t" defaultState).matrix
        "output" "v1" "planning" = lookupScore defaultState.matrix "output" "v1" "planning")
    ∧ akeys (update_affinity "s" "planning" [("research", "v1")] 1 "t" defaultState).matrix
        = akeys defaultState.matrix
    ∧ (alookup "structure"
          (update_affinity "s" "planning" [("research", "v1")] 1 "t" defaultState).matrix).map akeys
        = (alookup "structure" defaultState.matrix).map akeys
    ∧ ∃ q₀, lookupScore
        (update_affinity "s" "planning" [("research", "v1")] 1 "t" defaultState).matrix
        "research" "v1" "testing" = some q₀ :=
  ⟨(update_affinity_frame "s" "planning" [("research", "v1")] 1 "t" defaultState).1
      "output" "v1" "planning" (Or.inl (by decide)),
   (update_affinity_frame "s" "planning" [("research", "v1")] 1 "t" defaultState).2.1,
   (update_affinity_frame "s" "planning" [("research", "v1")] 1 "t" defaultState).2.2.1 "structure",
   (update_affinity_frame "s" "planning" [("research", "v1")] 1 "t" defaultState).2.2.2
      "research" "v1" "testing" 0.55 rfl⟩
